import Mathlib

/-!
Shallow embedding of the js-joda date-time formatting core, covering the
`DateTimeFormatter` facade (src/unnamed/part_000, i.e. `format/DateTimeFormatter.js`)
and `src/src/Period.js`, together with the parts of the printer/parser runtime
that the specification describes and that are exercised by its test file
(`DateTimeFormatterBuilderTest.js`).

JavaScript strings are embedded as `List Char`; JavaScript numbers holding
integer values are embedded as `Int` (with explicit 32-bit / safe-integer
reductions where the source relies on them); methods that throw are embedded
as `Except`-valued functions; `null`/`undefined` is embedded as `Option`.
-/

namespace JsJoda

/-- JS bitwise complement `~p` on an integer: two's complement, `~p = -(p+1)`. -/
def jsNot (p : Int) : Int := -(p + 1)

/-- The unsigned 32-bit residue of an integer.  JS `ToInt32` reduces a number
modulo `2^32` into the signed 32-bit range before a bitwise operation; the
bit pattern of the result is the binary representation of this residue, so
a JS `(a | b) === 0` test is `Nat.lor (u32 a) (u32 b) == 0` on residues. -/
def u32 (v : Int) : Nat := (v % 4294967296).toNat

/-- JS decimal digit character for `d < 10`. -/
def digChar (d : Nat) : Char := Char.ofNat (48 + d)

/-- The regex character class `[0-9]`. -/
def isDigitChar (c : Char) : Bool := 48 ≤ c.toNat && c.toNat ≤ 57

/-- Numeric value of a decimal digit character. -/
def digVal (c : Char) : Nat := c.toNat - 48

/-- Decimal digits of `n`, least significant first; `fuel` bounds the
recursion depth (any `fuel > n` is adequate). -/
def natToDigitsAux (fuel : Nat) (n : Nat) : List Char :=
  match fuel with
  | 0 => []
  | fuel2 + 1 => if n < 10 then [digChar n] else digChar (n % 10) :: natToDigitsAux fuel2 (n / 10)

/-- Decimal digits of `n`, most significant first: JS `String(n)` for a
nonnegative integer below `2^53` (JS only switches to exponential notation
at `1e21`, far above the safe-integer range used here). -/
def natToDigits (n : Nat) : List Char := (natToDigitsAux (n + 1) n).reverse

/-- JS `String(v)` for an integer `v` in the safe range: a leading `-` for
negative values, then the decimal digits. -/
def intToChars (v : Int) : List Char :=
  if v < 0 then '-' :: natToDigits v.natAbs else natToDigits v.natAbs

/-- Value of a list of decimal digit characters, most significant first
(the value JS `parseInt` gives an all-digits string). -/
def digitsVal (l : List Char) : Nat := l.foldl (fun a c => a * 10 + digVal c) 0

/-- JS `Number.MAX_SAFE_INTEGER` = `2^53 - 1`, the bound enforced by the
`MathUtil` integer helpers. -/
def MAX_SAFE_INTEGER : Nat := 9007199254740991

/-- Modelled from the spec: `MathUtil.safeToInt` is not under src/ (the spec
treats the integer helpers as external collaborators); modelled as the JS
safe-integer check: the value is returned unchanged when its absolute value
is at most `2^53 - 1`, otherwise an arithmetic error is thrown. -/
def safeToInt (v : Int) : Except (List Char) Int :=
  if v.natAbs ≤ MAX_SAFE_INTEGER then .ok v else .error ('o' :: 'v' :: 'f' :: [])

/-- Modelled from the spec: `MathUtil.safeAdd`, not under src/; the sum is
returned when it stays in the JS safe-integer range, else an error. -/
def safeAdd (a b : Int) : Except (List Char) Int :=
  if (a + b).natAbs ≤ MAX_SAFE_INTEGER then .ok (a + b) else .error ('o' :: 'v' :: 'f' :: [])

/-- Modelled from the spec: `MathUtil.safeMultiply`, not under src/; the
product is returned when it stays in the JS safe-integer range, else an
error. -/
def safeMultiply (a b : Int) : Except (List Char) Int :=
  if (a * b).natAbs ≤ MAX_SAFE_INTEGER then .ok (a * b) else .error ('o' :: 'v' :: 'f' :: [])

/-- `Period` (src/src/Period.js): years, months and days components.  The JS
class has exactly these three data fields; the `Period.ZERO` singleton is the
unique instance whose three fields are all zero (the constructor redirects
every all-zero construction to the singleton), so JS reference identity with
`Period.ZERO` coincides with structural equality with `⟨0, 0, 0⟩`. -/
structure Period where
  years : Int
  months : Int
  days : Int
deriving DecidableEq

/-- `Period.ZERO`, installed by `_init` with all three fields zero. -/
def Period.ZERO : Period := ⟨0, 0, 0⟩

/-- The constructor's test `(years | months | days) === 0` (Period.js line 71):
JS `|` reduces each operand to 32 bits, so the test is bitwise-or of the
32-bit residues compared with zero. -/
def jsOrIsZero (years months days : Int) : Bool :=
  Nat.lor (Nat.lor (u32 years) (u32 months)) (u32 days) == 0

/-- `Period.create` / the constructor (Period.js lines 69-96 and 339-341):
if `(years | months | days) === 0` the shared `Period.ZERO` is returned
before any validation; otherwise `_validate` runs `MathUtil.safeToInt` on
each component and the instance carries the three values. -/
def Period.create (years months days : Int) : Except (List Char) Period :=
  if jsOrIsZero years months days then .ok Period.ZERO
  else do
    let _ ← safeToInt years
    let _ ← safeToInt months
    let _ ← safeToInt days
    .ok ⟨years, months, days⟩

/-- `Period.of(years, months, days)` (Period.js line 162). -/
def Period.of (years months days : Int) : Except (List Char) Period :=
  Period.create years months days

/-- `Period.ofYears` (Period.js line 108). -/
def Period.ofYears (years : Int) : Except (List Char) Period := Period.create years 0 0

/-- `Period.ofMonths` (Period.js line 121). -/
def Period.ofMonths (months : Int) : Except (List Char) Period := Period.create 0 months 0

/-- `Period.ofDays` (Period.js line 147). -/
def Period.ofDays (days : Int) : Except (List Char) Period := Period.create 0 0 days

/-- `Period.ofWeeks` (Period.js line 134): days = `safeMultiply(weeks, 7)`. -/
def Period.ofWeeks (weeks : Int) : Except (List Char) Period := do
  let d ← safeMultiply weeks 7
  Period.create 0 0 d

/-- `isZero()` (Period.js line 373): JS `this === Period.ZERO`; by the
singleton property reference identity is structural equality with `ZERO`. -/
def Period.isZero (p : Period) : Bool := p == Period.ZERO

/-- `equals(obj)` (Period.js lines 836-847): reference equality, or instance
of `Period` with the three fields individually equal; on two `Period`s this
is exactly fieldwise equality. -/
def Period.equals (p q : Period) : Bool :=
  p.years == q.years && p.months == q.months && p.days == q.days

/-- `toString()` (Period.js lines 867-883): `'P0D'` for the ZERO singleton,
else `'P'` followed by one `<value><suffix>` section per nonzero component. -/
def Period.toChars (p : Period) : List Char :=
  if p = Period.ZERO then 'P' :: '0' :: 'D' :: []
  else
    'P' :: ((if p.years ≠ 0 then intToChars p.years ++ ['Y'] else []) ++
            ((if p.months ≠ 0 then intToChars p.months ++ ['M'] else []) ++
             (if p.days ≠ 0 then intToChars p.days ++ ['D'] else [])))

/-- One optional group `(?:([-+]?[0-9]+)X)?` of the `Period` parse regex
(Period.js line 56), matched at the current position: an optional sign, a
nonempty greedy digit run, then the suffix letter.  Backtracking the greedy
`[0-9]+` can never turn a failure into a success here (shrinking the digit
run leaves a digit where the suffix letter is required, and dropping a
consumed sign leaves the sign character where a digit is required), so the
regex group semantics is this deterministic scan.  The returned integer is
`MathUtil.parseInt` of the captured text.  `mgTail` is the part after the
optional sign: the digit run and the suffix letter. -/
def mgTail (suffix : Char) (sign : Int) (s1 : List Char) : Option (Int × List Char) :=
  let ds := s1.takeWhile isDigitChar
  if ds.isEmpty then none
  else
    match s1.drop ds.length with
    | c :: r => if c = suffix then some (sign * (digitsVal ds : Int), r) else none
    | [] => none

/-- The optional-sign part of the group: a leading `-` or `+` is consumed
and fixes the sign, anything else leaves the position unchanged. -/
def matchNumberGroup (suffix : Char) (s : List Char) : Option (Int × List Char) :=
  match s with
  | c :: r =>
    if c = '-' then mgTail suffix (-1) r
    else if c = '+' then mgTail suffix 1 r
    else mgTail suffix 1 s
  | [] => mgTail suffix 1 s

/-- A regex group either captures and advances, or captures nothing (JS
capture `undefined`) and leaves the position unchanged. -/
def groupStep (suffix : Char) (s : List Char) : Option Int × List Char :=
  match matchNumberGroup suffix s with
  | some (v, r) => (some v, r)
  | none => (none, s)

/-- The `Period` pattern `([-+]?)P(?:...Y)?(?:...M)?(?:...W)?(?:...D)?`
matched at the current position: group 1 decides the global negate factor,
then the literal `P`, then the four optional number groups in order.
Returns `(negate, (yearMatch, monthMatch, weekMatch, dayMatch))`. -/
def periodGroups (negate : Int) (s : List Char) :
    Option (Int × (Option Int × Option Int × Option Int × Option Int)) :=
  match s with
  | c :: r =>
    if c = 'P' then
      let y := groupStep 'Y' r
      let m := groupStep 'M' y.2
      let w := groupStep 'W' m.2
      let d := groupStep 'D' w.2
      some (negate, (y.1, m.1, w.1, d.1))
    else none
  | [] => none

/-- The sign group `([-+]?)` followed by the rest of the pattern. -/
def periodMatchHere (s : List Char) :
    Option (Int × (Option Int × Option Int × Option Int × Option Int)) :=
  match s with
  | c :: r =>
    if c = '-' then periodGroups (-1) r
    else if c = '+' then periodGroups 1 r
    else periodGroups 1 s
  | [] => periodGroups 1 s

/-- `PATTERN.exec(text)` (Period.js line 304): the regex is unanchored, so
`exec` returns the match at the first position where the pattern matches,
or `null` when it matches nowhere. -/
def execPeriodPattern : List Char →
    Option (Int × (Option Int × Option Int × Option Int × Option Int))
  | [] => periodMatchHere []
  | c :: r =>
    match periodMatchHere (c :: r) with
    | some m => some m
    | none => execPeriodPattern r

/-- `Period._parseNumber` (Period.js lines 323-329): an absent capture is 0,
a present capture is `safeMultiply(parseInt(str), negate)`. -/
def parseNumber (v : Option Int) (negate : Int) : Except (List Char) Int :=
  match v with
  | none => .ok 0
  | some val => safeMultiply val negate

/-- `Period._parse` (Period.js lines 303-321): run the regex; if it matched
and at least one of the four number groups is present, combine the sections
(`days = safeAdd(days, safeMultiply(weeks, 7))`) and call `Period.create`;
otherwise throw the parse error. -/
def Period.parseChars (s : List Char) : Except (List Char) Period :=
  match execPeriodPattern s with
  | none => .error ('n' :: 'o' :: 'P' :: [])
  | some (negate, (yM, mM, wM, dM)) =>
    if yM.isNone && mM.isNone && wM.isNone && dM.isNone then
      .error ('n' :: 'o' :: 'P' :: [])
    else do
      let years ← parseNumber yM negate
      let months ← parseNumber mM negate
      let weeks ← parseNumber wM negate
      let days0 ← parseNumber dM negate
      let wdays ← safeMultiply weeks 7
      let days ← safeAdd days0 wdays
      Period.create years months days

/-- Modelled from the spec: `ParsePosition` (§6, "Parse position") is not
under src/: a mutable cursor with `index : usize` and `errorIndex : isize`
(−1 when unset), with plain getters and setters. -/
structure ParsePosition where
  index : Nat
  errorIndex : Int
deriving DecidableEq

/-- `DateTimeParseException` (§6): carries `(message, text, errorIndex)`
(the optional cause is dropped here; no claim consults it). -/
structure DateTimeParseException where
  message : List Char
  parsedString : List Char
  errorIndex : Int
deriving DecidableEq

/-- `DateTimeFormatter._parseUnresolved0` (part_000 lines 420-432), with the
root printer/parser abstracted as the cursor-returning function `rootParse`
(a node's `parse(context, text, pos)` returns the new position, or the
bitwise complement of the error position when negative) and the successful
binding set abstracted as `parsed` (the `context.toParsed()` result).  On a
negative return the error index of the position is set to `~pos` and `null`
is returned, the input index untouched; otherwise the index is set to the
returned position and the bindings are returned, the error index
untouched. -/
def parseUnresolved0 {α : Type} (rootParse : Nat → Int) (parsed : α)
    (position : ParsePosition) : Option α × ParsePosition :=
  let pos := rootParse position.index
  if pos < 0 then (none, { position with errorIndex := jsNot pos })
  else (some parsed, { position with index := pos.toNat })

/-- The abbreviation of `_parseToBuilder` (part_000 lines 360-365): the first
64 characters followed by `...` when the text is longer than 64 characters,
else the text itself (this branch uses the correct `substr`). -/
def abbr64 (text : List Char) : List Char :=
  if text.length > 64 then text.take 64 ++ ('.' :: '.' :: '.' :: []) else text

/-- `DateTimeFormatter._parseToBuilder(text, null)` (part_000 lines 356-375)
as called from `parse1`, with caller-supplied position `null`: parse from a
fresh `ParsePosition(0)`; when the result is `null`, or an error index is
set, or (the caller passed no position and) the final index is short of the
text length, throw a `DateTimeParseException` whose message reports either
the error index or the unparsed-text index; otherwise return the parsed
result (which `parse1` then resolves). -/
def parseToBuilder1 {α : Type} (rootParse : Nat → Int) (parsed : α)
    (text : List Char) : Except DateTimeParseException α :=
  let r := parseUnresolved0 rootParse parsed ⟨0, -1⟩
  if r.1.isNone || decide (0 ≤ r.2.errorIndex) || decide (r.2.index < text.length) then
    if 0 ≤ r.2.errorIndex then
      .error ⟨('T' :: 'e' :: 'x' :: 't' :: ' ' :: '\x27' :: []) ++ abbr64 text ++
        ('\x27' :: []) ++ (" could not be parsed at index ".toList) ++
        intToChars r.2.errorIndex, text, r.2.errorIndex⟩
    else
      .error ⟨('T' :: 'e' :: 'x' :: 't' :: ' ' :: '\x27' :: []) ++ abbr64 text ++
        ('\x27' :: []) ++ (" could not be parsed, unparsed text found at index ".toList) ++
        natToDigits r.2.index, text, (r.2.index : Int)⟩
  else
    match r.1 with
    | some v => .ok v
    | none => .error ⟨[], text, 0⟩

/-- The outcome of evaluating a JS expression: a value, or a thrown
`TypeError` (e.g. calling a method that does not exist on the receiver). -/
inductive JsEval (α : Type) where
  | value : α → JsEval α
  | typeError : JsEval α
deriving DecidableEq

/-- `DateTimeFormatter._createError` (part_000 lines 332-340), the wrapper
`parse1`/`parse2` apply to a failure that is not itself a
`DateTimeParseException`.  The source reads
`abbr = text.subString(0, 64) + '...'` in the long-text branch; JS strings
have `substring`/`substr` but no `subString` method, so evaluating that
branch throws a `TypeError` instead of building the exception. -/
def createError (text : List Char) (exMessage : List Char) :
    JsEval DateTimeParseException :=
  if text.length > 64 then .typeError
  else
    .value ⟨('T' :: 'e' :: 'x' :: 't' :: ' ' :: '\x27' :: []) ++ text ++
      ('\x27' :: []) ++ (" could not be parsed: ".toList) ++ exMessage, text, 0⟩

/-- A chronology reference (the core holds these behind a narrow interface,
§6); `equals` on chronologies is equality of the referenced calendar. -/
structure Chronology where
  id : List Char
deriving DecidableEq

/-- `ResolverStyle` (§6). -/
inductive ResolverStyle where
  | STRICT | SMART | LENIENT
deriving DecidableEq

/-- Sign styles, §3. -/
inductive SignStyle where
  | NORMAL | NEVER | ALWAYS | EXCEEDS_PAD | NOT_NEGATIVE
deriving DecidableEq

/-- The printer/parser node tree, §3 "Printer/Parser node" (the node classes
themselves live in `DateTimeFormatterBuilder.js`, outside src/; the shape
and the pretty-printed forms are modelled from §3/§4.6 and the reference
test expectations).  Temporal fields are identified by their stable names
(`Year`, `MonthOfYear`, ...), §3 "Field". -/
inductive PPNode where
  | literal (s : List Char)
  | value (field : List Char) (minWidth maxWidth : Nat) (signStyle : SignStyle)
  | reduced (field : List Char) (width maxWidth : Nat) (baseText : List Char)
  | fraction (field : List Char) (minWidth maxWidth : Nat) (decimalPoint : Bool)
  | pad (inner : PPNode) (padWidth : Nat) (padChar : Option Char)
  | composite (children : List PPNode) (optional : Bool)
  | caseSensitive (b : Bool)
  | strict (b : Bool)
  | zoneId

/-- JS boolean to text, for `ParseCaseSensitive(true)` and the like. -/
def boolChars (b : Bool) : List Char :=
  if b then 't' :: 'r' :: 'u' :: 'e' :: [] else 'f' :: 'a' :: 'l' :: 's' :: 'e' :: []

/-- The printed name of a sign style (§4.6). -/
def SignStyle.show : SignStyle → List Char
  | .NORMAL => "NORMAL".toList
  | .NEVER => "NEVER".toList
  | .ALWAYS => "ALWAYS".toList
  | .EXCEEDS_PAD => "EXCEEDS_PAD".toList
  | .NOT_NEGATIVE => "NOT_NEGATIVE".toList

/-- Doubling of apostrophes inside a printed literal (§4.6). -/
def doubleQuotes : List Char → List Char
  | [] => []
  | c :: r => if c = '\x27' then '\x27' :: '\x27' :: doubleQuotes r else c :: doubleQuotes r

mutual

/-- Modelled from the spec: the pretty-printed form of each node (§4.6; the
node classes live in `DateTimeFormatterBuilder.js`, outside src/), with the
abbreviated `Value` forms and the pad/literal special cases fixed by the
reference tests: `Value(F)` for `(1,15,NORMAL)`, `Value(F,w)` for a
fixed-width `NOT_NEGATIVE` node, the lone apostrophe literal printed as a
doubled apostrophe without quotes, the pad character shown only when it is
not the default space, and a composite wrapped in `(`..`)` - or `[`..`]`
when the composite is optional. -/
def PPNode.show : PPNode → List Char
  | .literal s =>
    if s = ['\x27'] then '\x27' :: '\x27' :: []
    else '\x27' :: (doubleQuotes s ++ ['\x27'])
  | .value f min max style =>
    if min = 1 && max = 15 && style == SignStyle.NORMAL then
      "Value(".toList ++ f ++ [')']
    else if min == max && style == SignStyle.NOT_NEGATIVE then
      "Value(".toList ++ f ++ [','] ++ natToDigits min ++ [')']
    else
      "Value(".toList ++ f ++ [','] ++ natToDigits min ++ [','] ++ natToDigits max ++
        [','] ++ style.show ++ [')']
  | .reduced f w maxW base =>
    "ReducedValue(".toList ++ f ++ [','] ++ natToDigits w ++ [','] ++ natToDigits maxW ++
      [','] ++ base ++ [')']
  | .fraction f min max _ =>
    "Fraction(".toList ++ f ++ [','] ++ natToDigits min ++ [','] ++ natToDigits max ++ [')']
  | .pad inner w padChar =>
    "Pad(".toList ++ inner.show ++ [','] ++ natToDigits w ++
      (match padChar with
       | some c => if c = ' ' then [] else ',' :: '\x27' :: c :: '\x27' :: []
       | none => []) ++ [')']
  | .composite children opt =>
    (if opt then ['['] else ['(']) ++ showNodes children ++ (if opt then [']'] else [')'])
  | .caseSensitive b => "ParseCaseSensitive(".toList ++ boolChars b ++ [')']
  | .strict b => "ParseStrict(".toList ++ boolChars b ++ [')']
  | .zoneId => "ZoneId()".toList

/-- Concatenated printed forms of a composite's children (§4.6). -/
def showNodes : List PPNode → List Char
  | [] => []
  | n :: r => PPNode.show n ++ showNodes r

end

/-- Modelled from the spec: the builder state (§4.1): an active node
sequence with a stack of enclosing optional-group frames.  The head of
`stack` is the active sequence; each deeper entry is the suspended parent
sequence of an open optional group. -/
structure DTFBuilder where
  stack : List (List PPNode)

/-- A fresh builder: one empty active sequence, no open optional group. -/
def DTFBuilder.new : DTFBuilder := ⟨[[]]⟩

/-- Append a finished node to the active sequence. -/
def DTFBuilder.appendNode (b : DTFBuilder) (n : PPNode) : DTFBuilder :=
  match b.stack with
  | top :: rest => ⟨(top ++ [n]) :: rest⟩
  | [] => ⟨[[n]]⟩

/-- `optionalStart()` (§4.1): push a fresh optional frame. -/
def DTFBuilder.optionalStart (b : DTFBuilder) : DTFBuilder := ⟨[] :: b.stack⟩

/-- `optionalEnd()` (§4.1): pop the innermost optional frame and append it
to its parent as an optional composite — unless it is empty, in which case
nothing is appended; without an open frame this is the illegal-state
error. -/
def DTFBuilder.optionalEnd (b : DTFBuilder) : Except (List Char) DTFBuilder :=
  match b.stack with
  | top :: parent :: rest =>
    if top.isEmpty then .ok ⟨parent :: rest⟩
    else .ok ⟨(parent ++ [PPNode.composite top true]) :: rest⟩
  | _ => .error "IllegalState".toList

/-- Close every still-open optional frame (the implicit terminal
`optionalEnd`s of `toFormatter()`, §4.1): merge the active sequence `top`
into each suspended parent in turn and return the root sequence. -/
def closeFrames (top : List PPNode) : List (List PPNode) → List PPNode
  | [] => top
  | parent :: rest =>
    closeFrames (if top.isEmpty then parent else parent ++ [PPNode.composite top true]) rest

/-- Width validation of `appendValue` (§4.1): both widths in `[1,15]` and
`min ≤ max`. -/
def validWidths (min max : Nat) : Bool :=
  1 ≤ min && min ≤ 15 && 1 ≤ max && max ≤ 15 && min ≤ max

/-- `appendValue(field)` (§4.1/§4.2: the one-argument form). -/
def DTFBuilder.appendValue1 (b : DTFBuilder) (field : List Char) : DTFBuilder :=
  b.appendNode (PPNode.value field 1 15 SignStyle.NORMAL)

/-- `appendValue(field, width)` (§4.1): fixed width, `NOT_NEGATIVE`. -/
def DTFBuilder.appendValue2 (b : DTFBuilder) (field : List Char) (width : Nat) :
    Except (List Char) DTFBuilder :=
  if validWidths width width then .ok (b.appendNode (PPNode.value field width width SignStyle.NOT_NEGATIVE))
  else .error "IllegalArgument".toList

/-- `appendValue(field, min, max, signStyle)` (§4.1). -/
def DTFBuilder.appendValue4 (b : DTFBuilder) (field : List Char) (min max : Nat)
    (style : SignStyle) : Except (List Char) DTFBuilder :=
  if validWidths min max then .ok (b.appendNode (PPNode.value field min max style))
  else .error "IllegalArgument".toList

/-- `appendLiteral` (§4.1); the empty string is a no-op. -/
def DTFBuilder.appendLiteral (b : DTFBuilder) (s : List Char) : DTFBuilder :=
  if s.isEmpty then b else b.appendNode (PPNode.literal s)

/-- Modelled from the spec: the pattern compiler (§4.2; `appendPattern` in
`DateTimeFormatterBuilder.js`, outside src/), restricted to the letter rows
the claims exercise — `u`/`y` (count 1 plain value, 2 a reduced value based
at 2000-01-01, 3–5 a `(count,15)` value with `NORMAL` for 3 and
`EXCEEDS_PAD` above), the 1–2 count numeric letters, `D` up to 3, quoting,
and `[`/`]` optional brackets; any other ASCII letter and any unsupported
count is the illegal-argument error, any other character a literal. -/
def patternFieldOneTwo (c : Char) : Option (List Char) :=
  if c = 'M' then some "MonthOfYear".toList
  else if c = 'L' then some "MonthOfYear".toList
  else if c = 'd' then some "DayOfMonth".toList
  else if c = 'H' then some "HourOfDay".toList
  else if c = 'K' then some "HourOfAmPm".toList
  else if c = 'k' then some "ClockHourOfDay".toList
  else if c = 'h' then some "ClockHourOfAmPm".toList
  else if c = 'm' then some "MinuteOfHour".toList
  else if c = 's' then some "SecondOfMinute".toList
  else if c = 'q' then some "QuarterOfYear".toList
  else if c = 'F' then some "AlignedDayOfWeekInMonth".toList
  else none

/-- Is `c` an ASCII letter (pattern letters are counted in runs)? -/
def isAsciiLetter (c : Char) : Bool :=
  (97 ≤ c.toNat && c.toNat ≤ 122) || (65 ≤ c.toNat && c.toNat ≤ 90)

/-- Dispatch one counted pattern letter to builder calls (§4.2, subset). -/
def dispatchLetter (b : DTFBuilder) (c : Char) (cnt : Nat) :
    Except (List Char) DTFBuilder :=
  if c = 'u' || c = 'y' then
    let field := if c = 'u' then "Year".toList else "YearOfEra".toList
    if cnt = 1 then .ok (b.appendValue1 field)
    else if cnt = 2 then
      .ok (b.appendNode (PPNode.reduced field 2 2 "2000-01-01".toList))
    else if cnt = 3 then b.appendValue4 field 3 15 SignStyle.NORMAL
    else if cnt ≤ 5 then b.appendValue4 field cnt 15 SignStyle.EXCEEDS_PAD
    else .error "IllegalArgument".toList
  else if c = 'D' then
    if cnt = 1 then .ok (b.appendValue1 "DayOfYear".toList)
    else if cnt ≤ 3 then b.appendValue2 "DayOfYear".toList cnt
    else .error "IllegalArgument".toList
  else
    match patternFieldOneTwo c with
    | some field =>
      if cnt = 1 then .ok (b.appendValue1 field)
      else if cnt = 2 then b.appendValue2 field 2
      else .error "IllegalArgument".toList
    | none => .error "IllegalArgument".toList

/-- Scan a quoted literal after the opening apostrophe: a doubled apostrophe
stands for one, the literal must close (§4.2).  Returns the literal content
and how many characters (closing apostrophe included) were consumed. -/
def scanQuoted (acc : List Char) : List Char → Option (List Char × Nat)
  | [] => none
  | c :: r =>
    if c = '\x27' then
      match r with
      | c2 :: r2 =>
        if c2 = '\x27' then (scanQuoted (acc ++ ['\x27']) r2).map (fun p => (p.1, p.2 + 2))
        else some (acc, 1)
      | [] => some (acc, 1)
    else (scanQuoted (acc ++ [c]) r).map (fun p => (p.1, p.2 + 1))

/-- One step of the pattern loop; `fuel` bounds the number of steps (every
step consumes at least one character, so the pattern length is adequate);
see `DTFBuilder.appendPattern`. -/
def appendPatternAux (fuel : Nat) (b : DTFBuilder) (l : List Char) :
    Except (List Char) DTFBuilder :=
  match fuel, l with
  | _, [] => .ok b
  | 0, _ => .error "IllegalArgument".toList
  | fuel2 + 1, c :: r =>
    if isAsciiLetter c then
      let run := r.takeWhile (fun x => x = c)
      match dispatchLetter b c (1 + run.length) with
      | .ok b2 => appendPatternAux fuel2 b2 (r.drop run.length)
      | .error e => .error e
    else if c = '[' then appendPatternAux fuel2 b.optionalStart r
    else if c = ']' then
      match b.optionalEnd with
      | .ok b2 => appendPatternAux fuel2 b2 r
      | .error _ => .error "IllegalArgument".toList
    else if c = '\x27' then
      match scanQuoted [] r with
      | none => .error "IllegalArgument".toList
      | some (content, consumed) =>
        appendPatternAux fuel2
          (if content.isEmpty then b.appendLiteral ['\x27'] else b.appendLiteral content)
          (r.drop consumed)
    else appendPatternAux fuel2 (b.appendLiteral [c]) r

/-- `appendPattern(string)` (§4.1/§4.2). -/
def DTFBuilder.appendPattern (b : DTFBuilder) (pattern : List Char) :
    Except (List Char) DTFBuilder :=
  appendPatternAux pattern.length b pattern

/-- The `DateTimeFormatter` value (part_000 constructor, lines 130-162): the
immutable bundle of root printer/parser, locale, decimal style, resolver
style, resolver field filter, override chronology and override zone.  The
locale, decimal style, resolver-fields filter and zone are opaque handles
here — the facade only copies them around. -/
structure DateTimeFormatter where
  printerParser : PPNode
  locale : Option (List Char)
  decimalStyle : Nat
  resolverStyle : ResolverStyle
  resolverFields : Option (List (List Char))
  chrono : Option Chronology
  zone : Option (List Char)

/-- `toFormatter()` (§4.1): implicitly close open optional groups and wrap
the root sequence in a non-optional composite; the default formatter state
matches the facade constructor defaults. -/
def DTFBuilder.toFormatter (b : DTFBuilder) : DateTimeFormatter :=
  { printerParser := PPNode.composite
      (match b.stack with
       | [] => []
       | top :: rest => closeFrames top rest) false,
    locale := none, decimalStyle := 0, resolverStyle := ResolverStyle.SMART,
    resolverFields := none, chrono := none, zone := none }

/-- `withChronology(chrono)` (part_000 lines 200-206): when the current
override chronology is non-null and `equals` the argument, `this` is
returned; otherwise a new formatter is constructed with the same
printer/parser, locale, decimal style, resolver style, resolver fields and
zone, and the new chronology. -/
def DateTimeFormatter.withChronology (f : DateTimeFormatter) (chrono : Chronology) :
    DateTimeFormatter :=
  if (match f.chrono with | some c => c == chrono | none => false) then f
  else
    { printerParser := f.printerParser, locale := f.locale,
      decimalStyle := f.decimalStyle, resolverStyle := f.resolverStyle,
      resolverFields := f.resolverFields, chrono := some chrono, zone := f.zone }

/-- `toString()` (part_000 lines 444-447): the root node's printed pattern;
when it does not start with `[`, its first and last characters (the
non-optional composite's parentheses) are stripped
(`pattern.substring(1, pattern.length - 1)`). -/
def DateTimeFormatter.showFormatter (f : DateTimeFormatter) : List Char :=
  let pattern := f.printerParser.show
  if pattern.head? = some '[' then pattern else (pattern.drop 1).dropLast

/-- A temporal accessor as seen by the two parse-result queries (part_000
lines 484-498): either a `DateTimeBuilder` (the parse result carrying the
`excessDays` and `leapSecond` side-channels) or any other temporal. -/
inductive TemporalAccessor where
  | builder (excessDays : Period) (leapSecond : Bool)
  | other (id : Nat)
deriving DecidableEq

/-- A JS query result: the value, or `null`. -/
inductive JsValue where
  | nullValue
  | periodValue (p : Period)
  | boolValue (b : Bool)
deriving DecidableEq

/-- The query behind `DateTimeFormatter.parsedExcessDays()` (part_000 lines
80-82 and 484-490): `temporal.excessDays` on a `DateTimeBuilder`, else
`Period.ZERO`. -/
def PARSED_EXCESS_DAYS (temporal : TemporalAccessor) : JsValue :=
  match temporal with
  | .builder excessDays _ => .periodValue excessDays
  | .other _ => .periodValue Period.ZERO

/-- The query behind `DateTimeFormatter.parsedLeapSecond()` (part_000 lines
114-116 and 492-498): `temporal.leapSecond` on a `DateTimeBuilder`, else
`false`. -/
def PARSED_LEAP_SECOND (temporal : TemporalAccessor) : JsValue :=
  match temporal with
  | .builder _ leapSecond => .boolValue leapSecond
  | .other _ => .boolValue false

/-- Split a digit run into consecutive fixed-width unsigned values (§4.4
step 3: `V₁ … Vₖ` consume their respective fixed widths in order). -/
def splitWidths : List Nat → List Char → List Nat
  | [], _ => []
  | w :: ws, ds => digitsVal (ds.take w) :: splitWidths ws (ds.drop w)

/-- Modelled from the spec: the subsequent-width / adjacent-value parsing
algorithm (§4.4; the number parser nodes live in
`DateTimeFormatterBuilder.js`, outside src/).  For a group `V₀ V₁ … Vₖ`
with `V₀` variable-width `[v0min, v0max]` and fixed suffix widths
`fixedWidths` of total `F`, at cursor `pos`: scan up to `v0max + F` digit
characters, stopping at the first non-digit; with run length `L`, fail at
`pos` when `L < v0min + F`; else `V₀` takes the first `L − F` digits and
the fixed fields their declared widths.  Sign handling is omitted: every
claim input is an unsigned digit string, and §4.4 steps 1–3 are stated on
the digit run.  Returns the field values (`V₀` first) and the new cursor. -/
def adjacentParse (v0min v0max : Nat) (fixedWidths : List Nat) (text : List Char)
    (pos : Nat) : Option (List Nat × Nat) :=
  let F := fixedWidths.foldl (· + ·) 0
  let run := ((text.drop pos).takeWhile isDigitChar).take (v0max + F)
  let L := run.length
  if L < v0min + F then none
  else some (digitsVal (run.take (L - F)) :: splitWidths fixedWidths (run.drop (L - F)), pos + L)

/-- The root parse of the claim-C1 formatter
`appendValue(MonthOfYear,1,2,NORMAL)` then `appendValue(DayOfMonth,2)`, in
the node protocol of §4.4: the new cursor on success, `~pos` on failure. -/
def monthDayRootParse (text : List Char) (pos : Nat) : Int :=
  match adjacentParse 1 2 [2] text pos with
  | some (_, p) => (p : Int)
  | none => jsNot (pos : Int)

/-- The bindings produced by the claim-C1 formatter: MonthOfYear from `V₀`,
DayOfMonth from the fixed-width suffix field. -/
def monthDayBindings (text : List Char) (pos : Nat) : Option (Nat × Nat) :=
  match adjacentParse 1 2 [2] text pos with
  | some (moy :: dom :: [], _) => some (moy, dom)
  | _ => none

/-- Modelled from the spec: the reduced-value window computation (§4.4
"Reduced value parsing"; `ReducedPrinterParser` lives outside src/): with
parsed digits `d`, base cycle `C = base − (base mod 10^width)` and candidate
`v = C + d`; when `v < base`, `10^width` is added, placing the result in
`[base, base + 10^width)`. -/
def reducedSetValue (base : Int) (width : Nat) (d : Nat) : Int :=
  let cycle := base - base % ((10 : Int) ^ width)
  let v := cycle + d
  if v < base then v + (10 : Int) ^ width else v

/-- Modelled from the spec: `ReducedValue` parsing consumes exactly `width`
digits (§4.4) and applies the base-cycle computation. -/
def reducedParse (base : Int) (width : Nat) (text : List Char) (pos : Nat) :
    Option (Int × Nat) :=
  let ds := (text.drop pos).take width
  if ds.length = width && ds.all isDigitChar then
    some (reducedSetValue base width (digitsVal ds), pos + width)
  else none

theorem digChar_val {d : Nat} (h : d < 10) : digVal (digChar d) = d := by
  interval_cases d <;> decide

theorem digChar_isDigit {d : Nat} (h : d < 10) : isDigitChar (digChar d) = true := by
  interval_cases d <;> decide

theorem digVal_le9 {c : Char} (h : isDigitChar c = true) : digVal c ≤ 9 := by
  simp [isDigitChar] at h
  simp [digVal]
  omega

theorem digitsVal_append (l : List Char) (c : Char) :
    digitsVal (l ++ [c]) = digitsVal l * 10 + digVal c := by
  simp [digitsVal, List.foldl_append]

theorem natToDigitsAux_adequate (n : Nat) : ∀ f1 f2, n < f1 → n < f2 →
    natToDigitsAux f1 n = natToDigitsAux f2 n := by
  induction n using Nat.strong_induction_on with
  | _ n ih =>
    intro f1 f2 h1 h2
    cases f1 with
    | zero => omega
    | succ g1 =>
      cases f2 with
      | zero => omega
      | succ g2 =>
        simp only [natToDigitsAux]
        by_cases h : n < 10
        · simp [h]
        · simp only [h, if_false]
          have hlt : n / 10 < n := Nat.div_lt_self (by omega) (by omega)
          rw [ih (n / 10) hlt g1 g2 (by omega) (by omega)]

theorem natToDigits_small {n : Nat} (h : n < 10) : natToDigits n = [digChar n] := by
  unfold natToDigits
  simp [natToDigitsAux, h]

theorem natToDigits_large {n : Nat} (h : ¬ n < 10) :
    natToDigits n = natToDigits (n / 10) ++ [digChar (n % 10)] := by
  unfold natToDigits
  have h1 : natToDigitsAux (n + 1) n = digChar (n % 10) :: natToDigitsAux n (n / 10) := by
    simp [natToDigitsAux, h]
  have hlt : n / 10 < n := Nat.div_lt_self (by omega) (by omega)
  rw [h1, natToDigitsAux_adequate (n / 10) n (n / 10 + 1) (by omega) (by omega)]
  simp

theorem digitsVal_natToDigits (n : Nat) : digitsVal (natToDigits n) = n := by
  induction n using Nat.strong_induction_on with
  | _ n ih =>
    by_cases h : n < 10
    · rw [natToDigits_small h]
      simpa [digitsVal] using digChar_val h
    · rw [natToDigits_large h, digitsVal_append,
        ih (n / 10) (Nat.div_lt_self (by omega) (by omega)),
        digChar_val (Nat.mod_lt _ (by omega))]
      omega

theorem natToDigits_all_digits (n : Nat) : ∀ c ∈ natToDigits n, isDigitChar c = true := by
  induction n using Nat.strong_induction_on with
  | _ n ih =>
    by_cases h : n < 10
    · rw [natToDigits_small h]
      intro c hc
      simp at hc
      subst hc
      exact digChar_isDigit h
    · rw [natToDigits_large h]
      intro c hc
      rcases List.mem_append.1 hc with h1 | h2
      · exact ih (n / 10) (Nat.div_lt_self (by omega) (by omega)) c h1
      · simp at h2
        subst h2
        exact digChar_isDigit (Nat.mod_lt _ (by omega))

theorem natToDigits_ne_nil (n : Nat) : natToDigits n ≠ [] := by
  by_cases h : n < 10
  · rw [natToDigits_small h]
    simp
  · rw [natToDigits_large h]
    simp

theorem takeWhile_append_stop {p : Char → Bool} (l r : List Char)
    (hl : ∀ c ∈ l, p c = true) {c : Char} (hc : p c = false) :
    (l ++ c :: r).takeWhile p = l := by
  induction l with
  | nil => simp [List.takeWhile, hc]
  | cons x xs ih =>
    simp only [List.cons_append, List.takeWhile]
    rw [hl x (by simp)]
    simp only [ite_true, List.append_eq]
    rw [ih (fun d hd => hl d (by simp [hd]))]

theorem digitsVal_lt_pow (l : List Char) (h : ∀ c ∈ l, isDigitChar c = true) :
    digitsVal l < 10 ^ l.length := by
  induction l using List.reverseRecOn with
  | nil => simp [digitsVal]
  | append_singleton l c ih =>
    rw [digitsVal_append]
    have h1 := ih (fun d hd => h d (by simp [hd]))
    have h2 : digVal c ≤ 9 := digVal_le9 (h c (by simp))
    have h3 : (digitsVal l + 1) * 10 ≤ 10 ^ l.length * 10 :=
      Nat.mul_le_mul_right 10 (Nat.succ_le_of_lt h1)
    simp only [List.length_append, List.length_cons, List.length_nil]
    rw [pow_succ]
    omega

/-- C10: for every temporal argument that is not a `DateTimeBuilder`, the
query returned by `parsedExcessDays()` yields `Period.ZERO` and the query
returned by `parsedLeapSecond()` yields `false`; neither query yields
`null`. -/
theorem parsed_queries_default (t : TemporalAccessor)
    (h : ∀ ed ls, t ≠ TemporalAccessor.builder ed ls) :
    PARSED_EXCESS_DAYS t = JsValue.periodValue Period.ZERO ∧
    PARSED_LEAP_SECOND t = JsValue.boolValue false ∧
    PARSED_EXCESS_DAYS t ≠ JsValue.nullValue ∧
    PARSED_LEAP_SECOND t ≠ JsValue.nullValue := by
  cases t with
  | builder ed ls => exact absurd rfl (h ed ls)
  | other i =>
    refine ⟨rfl, rfl, ?_, ?_⟩ <;> simp [PARSED_EXCESS_DAYS, PARSED_LEAP_SECOND]

/-- Witness for C10 at a concrete non-builder temporal. -/
theorem parsed_queries_default_witness :
    PARSED_EXCESS_DAYS (TemporalAccessor.other 0) = JsValue.periodValue Period.ZERO ∧
    PARSED_LEAP_SECOND (TemporalAccessor.other 0) = JsValue.boolValue false ∧
    PARSED_EXCESS_DAYS (TemporalAccessor.other 0) ≠ JsValue.nullValue ∧
    PARSED_LEAP_SECOND (TemporalAccessor.other 0) ≠ JsValue.nullValue :=
  parsed_queries_default (TemporalAccessor.other 0)
    (fun _ _ h => TemporalAccessor.noConfusion h)

/-- C7: `withChronology(c)` returns the formatter itself exactly when the
current override chronology is non-null and equals `c` (which for the
chronology references modelled here is `chrono = some c`); otherwise it
returns a formatter whose chronology is `c` and whose printer/parser,
locale, decimal style, resolver style, resolver fields and zone are those
of the receiver — which, being a plain value here as in the source (the
method only reads `this`), is itself unmodified. -/
theorem withChronology_spec (f : DateTimeFormatter) (c : Chronology) :
    (f.chrono = some c → f.withChronology c = f) ∧
    (f.chrono ≠ some c →
      (f.withChronology c).chrono = some c ∧
      (f.withChronology c).printerParser = f.printerParser ∧
      (f.withChronology c).locale = f.locale ∧
      (f.withChronology c).decimalStyle = f.decimalStyle ∧
      (f.withChronology c).resolverStyle = f.resolverStyle ∧
      (f.withChronology c).resolverFields = f.resolverFields ∧
      (f.withChronology c).zone = f.zone) := by
  constructor
  · intro h
    simp [DateTimeFormatter.withChronology, h]
  · intro h
    cases hc : f.chrono with
    | none => simp [DateTimeFormatter.withChronology, hc]
    | some c2 =>
      have hne : c2 ≠ c := by
        intro heq
        exact h (by rw [hc, heq])
      simp [DateTimeFormatter.withChronology, hc, hne]

/-- Witness for C7: both branches at concrete formatters. -/
theorem withChronology_spec_witness :
    (DateTimeFormatter.withChronology
      ⟨PPNode.zoneId, none, 0, ResolverStyle.SMART, none, some ⟨['I']⟩, none⟩ ⟨['I']⟩ =
      ⟨PPNode.zoneId, none, 0, ResolverStyle.SMART, none, some ⟨['I']⟩, none⟩) ∧
    (DateTimeFormatter.withChronology
      ⟨PPNode.zoneId, none, 0, ResolverStyle.SMART, none, none, none⟩ ⟨['I']⟩).chrono =
      some ⟨['I']⟩ :=
  ⟨(withChronology_spec ⟨PPNode.zoneId, none, 0, ResolverStyle.SMART, none, some ⟨['I']⟩, none⟩
      ⟨['I']⟩).1 rfl,
   ((withChronology_spec ⟨PPNode.zoneId, none, 0, ResolverStyle.SMART, none, none, none⟩
      ⟨['I']⟩).2 (by simp)).1⟩

/-- C4: `parseUnresolved(text, position)`: when the root parse returns a
negative encoded position the result is `null`, the position's error index
becomes the bitwise complement of that return (hence is nonnegative) and
the index is unchanged; when it returns a nonnegative position the parsed
bindings are returned, the index becomes that position (the cursor after
the consumed characters) and the error index is unchanged. -/
theorem parseUnresolved0_position_contract {α : Type} (rootParse : Nat → Int)
    (parsed : α) (position : ParsePosition) :
    (rootParse position.index < 0 →
      (parseUnresolved0 rootParse parsed position).1 = none ∧
      (parseUnresolved0 rootParse parsed position).2.errorIndex =
        jsNot (rootParse position.index) ∧
      0 ≤ (parseUnresolved0 rootParse parsed position).2.errorIndex ∧
      (parseUnresolved0 rootParse parsed position).2.index = position.index) ∧
    (0 ≤ rootParse position.index →
      (parseUnresolved0 rootParse parsed position).1 = some parsed ∧
      (parseUnresolved0 rootParse parsed position).2.index =
        (rootParse position.index).toNat ∧
      (parseUnresolved0 rootParse parsed position).2.errorIndex = position.errorIndex) := by
  constructor
  · intro h
    refine ⟨?_, ?_, ?_, ?_⟩ <;> simp only [parseUnresolved0, if_pos h]
    all_goals first
    | rfl
    | (simp only [jsNot]; omega)
  · intro h
    have h2 : ¬ rootParse position.index < 0 := by omega
    refine ⟨?_, ?_, ?_⟩ <;> simp only [parseUnresolved0, if_neg h2]

/-- Witness for C4: a failing root parse (return −3) and a succeeding one
(return 2) at a concrete position. -/
theorem parseUnresolved0_position_contract_witness :
    ((parseUnresolved0 (fun _ => (-3 : Int)) (7 : Nat) ⟨1, -1⟩).1 = none ∧
      (parseUnresolved0 (fun _ => (-3 : Int)) (7 : Nat) ⟨1, -1⟩).2.errorIndex =
        jsNot (-3) ∧
      0 ≤ (parseUnresolved0 (fun _ => (-3 : Int)) (7 : Nat) ⟨1, -1⟩).2.errorIndex ∧
      (parseUnresolved0 (fun _ => (-3 : Int)) (7 : Nat) ⟨1, -1⟩).2.index = 1) ∧
    ((parseUnresolved0 (fun _ => (2 : Int)) (7 : Nat) ⟨1, -1⟩).1 = some 7 ∧
      (parseUnresolved0 (fun _ => (2 : Int)) (7 : Nat) ⟨1, -1⟩).2.index = 2 ∧
      (parseUnresolved0 (fun _ => (2 : Int)) (7 : Nat) ⟨1, -1⟩).2.errorIndex = -1) :=
  ⟨(parseUnresolved0_position_contract (fun _ => (-3 : Int)) 7 ⟨1, -1⟩).1 (by decide),
   (parseUnresolved0_position_contract (fun _ => (2 : Int)) 7 ⟨1, -1⟩).2 (by decide)⟩

/-- C2 (code bug): `_createError` applied to a text of 65 characters
evaluates `text.subString(0, 64)`, a method JS strings do not have, so a
`TypeError` is thrown instead of the claimed `DateTimeParseException` with
the abbreviated text; a text of at most 64 characters does produce the
claimed exception with the full text in the message. -/
theorem createError_long_text_typeError :
    createError (List.replicate 65 'a') [] = JsEval.typeError ∧
    createError (List.replicate 64 'a') [] =
      JsEval.value ⟨('T' :: 'e' :: 'x' :: 't' :: ' ' :: '\x27' :: []) ++
        List.replicate 64 'a' ++ ('\x27' :: []) ++
        (" could not be parsed: ".toList) ++ [], List.replicate 64 'a', 0⟩ := by
  constructor
  · simp [createError]
  · simp [createError]

/-- C1: the adjacent-value parse of
`Value(MonthOfYear,1,2,NORMAL) Value(DayOfMonth,2)` on `"123"` gives
MonthOfYear 1 and DayOfMonth 23 with final index 3, and on `"0123"` gives
MonthOfYear 1 and DayOfMonth 23 (final index 4): the variable-width first
field absorbs the leading zero while the fixed suffix always takes its two
digits.  The `parseUnresolved` position updates are included via
`parseUnresolved0`. -/
theorem adjacent_parse_month_day :
    monthDayBindings ('1' :: '2' :: '3' :: []) 0 = some (1, 23) ∧
    (parseUnresolved0 (monthDayRootParse ('1' :: '2' :: '3' :: []))
      (monthDayBindings ('1' :: '2' :: '3' :: []) 0) ⟨0, -1⟩).2.index = 3 ∧
    monthDayBindings ('0' :: '1' :: '2' :: '3' :: []) 0 = some (1, 23) ∧
    (parseUnresolved0 (monthDayRootParse ('0' :: '1' :: '2' :: '3' :: []))
      (monthDayBindings ('0' :: '1' :: '2' :: '3' :: []) 0) ⟨0, -1⟩).2.index = 4 := by
  decide

/-- C3: every value a `ReducedValue(field, width, maxWidth, base)` node
parses lies in the half-open window `[base, base + 10^width)`; concretely
`ReducedValue(Year,2,2,2000)` parses `"12"` to 2012 and `"99"` to 2099. -/
theorem reduced_value_window :
    (∀ (base : Int) (width : Nat) (text : List Char) (pos : Nat) (v : Int) (p2 : Nat),
      reducedParse base width text pos = some (v, p2) →
      base ≤ v ∧ v < base + (10 : Int) ^ width) ∧
    reducedParse 2000 2 ('1' :: '2' :: []) 0 = some (2012, 2) ∧
    reducedParse 2000 2 ('9' :: '9' :: []) 0 = some (2099, 2) := by
  refine ⟨?_, by decide, by decide⟩
  intro base width text pos v p2 h
  simp only [reducedParse] at h
  split at h
  case isFalse => exact absurd h (by simp)
  case isTrue hcond =>
    have hv : v = reducedSetValue base width (digitsVal ((text.drop pos).take width)) := by
      injection h with h1
      injection h1 with h2 h3
      exact h2.symm
    rw [Bool.and_eq_true] at hcond
    obtain ⟨hlen0, hall0⟩ := hcond
    have hlen : ((text.drop pos).take width).length = width := of_decide_eq_true hlen0
    have hall : ∀ c ∈ (text.drop pos).take width, isDigitChar c = true := by
      intro c hc
      simpa using List.all_eq_true.1 hall0 c hc
    have hd : digitsVal ((text.drop pos).take width) < 10 ^ width := by
      have := digitsVal_lt_pow ((text.drop pos).take width) hall
      rwa [hlen] at this
    subst hv
    have hM : (0 : Int) < (10 : Int) ^ width := by positivity
    have hdM : (digitsVal ((text.drop pos).take width) : Int) < (10 : Int) ^ width := by
      have : ((digitsVal ((text.drop pos).take width) : Nat) : Int) < ((10 ^ width : Nat) : Int) := by
        exact_mod_cast hd
      simpa [Nat.cast_pow] using this
    have he1 : 0 ≤ base % (10 : Int) ^ width := Int.emod_nonneg base (by omega)
    have he2 : base % (10 : Int) ^ width < (10 : Int) ^ width := Int.emod_lt_of_pos base hM
    simp only [reducedSetValue]
    split <;> omega

/-- Witness for C3: the window instantiated at the parse of `"12"` with
base 2000 and width 2. -/
theorem reduced_value_window_witness :
    (2000 : Int) ≤ 2012 ∧ (2012 : Int) < 2000 + (10 : Int) ^ 2 :=
  reduced_value_window.1 2000 2 ('1' :: '2' :: []) 0 2012 2 (by decide)

/-- C5: `parse(text)` with no caller-supplied position: when the underlying
parse succeeds (nonnegative return) with a final index `N` short of the
text length, a `DateTimeParseException` is thrown whose message is exactly
`Text '<abbr>' could not be parsed, unparsed text found at index N`; and a
result is only returned when no character is left, i.e. when the final
index reaches the text length. -/
theorem parse_requires_full_consumption {α : Type} (rootParse : Nat → Int)
    (parsed : α) (text : List Char) :
    (0 ≤ rootParse 0 → (rootParse 0).toNat < text.length →
      parseToBuilder1 rootParse parsed text =
        .error ⟨('T' :: 'e' :: 'x' :: 't' :: ' ' :: '\x27' :: []) ++ abbr64 text ++
          ('\x27' :: []) ++ (" could not be parsed, unparsed text found at index ".toList) ++
          natToDigits (rootParse 0).toNat, text, ((rootParse 0).toNat : Int)⟩) ∧
    (∀ v, parseToBuilder1 rootParse parsed text = .ok v →
      0 ≤ rootParse 0 ∧ text.length ≤ (rootParse 0).toNat) := by
  have hidx : (⟨0, -1⟩ : ParsePosition).index = 0 := rfl
  constructor
  · intro h1 h2
    have e : parseUnresolved0 rootParse parsed ⟨0, -1⟩ =
        (some parsed, ⟨(rootParse 0).toNat, -1⟩) := by
      simp only [parseUnresolved0, hidx]
      rw [if_neg (by omega)]
    simp only [parseToBuilder1, e, Option.isNone_some, Bool.false_or]
    rw [decide_eq_false (by omega : ¬ (0 : Int) ≤ -1), Bool.false_or,
      decide_eq_true (by exact h2), if_pos rfl, if_neg (by omega : ¬ (0 : Int) ≤ -1)]
  · intro v hok
    by_cases hneg : rootParse 0 < 0
    · exfalso
      have e : parseUnresolved0 rootParse parsed ⟨0, -1⟩ =
          (none, ⟨0, jsNot (rootParse 0)⟩) := by
        simp only [parseUnresolved0, hidx]
        rw [if_pos hneg]
      simp only [parseToBuilder1, e, Option.isNone_none, Bool.true_or, if_pos rfl] at hok
      by_cases hc : (0 : Int) ≤ jsNot (rootParse 0)
      · rw [if_pos hc] at hok
        exact Except.noConfusion hok
      · rw [if_neg hc] at hok
        exact Except.noConfusion hok
    · have e : parseUnresolved0 rootParse parsed ⟨0, -1⟩ =
          (some parsed, ⟨(rootParse 0).toNat, -1⟩) := by
        simp only [parseUnresolved0, hidx]
        rw [if_neg hneg]
      refine ⟨by omega, ?_⟩
      by_contra hshort
      simp only [parseToBuilder1, e, Option.isNone_some, Bool.false_or] at hok
      rw [decide_eq_false (by omega : ¬ (0 : Int) ≤ -1), Bool.false_or,
        decide_eq_true (by omega : (rootParse 0).toNat < text.length), if_pos rfl,
        if_neg (by omega : ¬ (0 : Int) ≤ -1)] at hok
      exact Except.noConfusion hok

/-- Witness for C5: root parse stops at index 1 on a two-character text. -/
theorem parse_requires_full_consumption_witness :
    parseToBuilder1 (fun _ => (1 : Int)) (0 : Nat) ('a' :: 'b' :: []) =
      .error ⟨('T' :: 'e' :: 'x' :: 't' :: ' ' :: '\x27' :: []) ++
        abbr64 ('a' :: 'b' :: []) ++ ('\x27' :: []) ++
        (" could not be parsed, unparsed text found at index ".toList) ++
        natToDigits ((1 : Int)).toNat, 'a' :: 'b' :: [], (((1 : Int)).toNat : Int)⟩ :=
  (parse_requires_full_consumption (fun _ => (1 : Int)) 0 ('a' :: 'b' :: [])).1
    (by decide) (by decide)

/-- C6: a formatter's `toString` is the root node's printed pattern with the
outer composite brackets stripped when present: an empty builder prints the
empty string, and the pattern `uuuu[-MM[-dd]]` prints exactly
`Value(Year,4,15,EXCEEDS_PAD)['-'Value(MonthOfYear,2)['-'Value(DayOfMonth,2)]]`. -/
theorem formatter_toString_strip :
    (DTFBuilder.new.toFormatter).showFormatter = [] ∧
    (DTFBuilder.new.appendPattern "uuuu[-MM[-dd]]".toList).map
        (fun b => b.toFormatter.showFormatter) =
      .ok "Value(Year,4,15,EXCEEDS_PAD)['-'Value(MonthOfYear,2)['-'Value(DayOfMonth,2)]]".toList := by
  exact ⟨rfl, rfl⟩

theorem nat_lor_eq_zero {a b : Nat} (h : Nat.lor a b = 0) : a = 0 ∧ b = 0 := by
  have h0 : a ||| b = 0 := h
  constructor
  · by_contra ha
    obtain ⟨i, hi⟩ := Nat.exists_most_significant_bit ha
    have h2 := congrArg (fun n => Nat.testBit n i) h0
    simp [Nat.testBit_lor, hi.1] at h2
  · by_contra hb
    obtain ⟨i, hi⟩ := Nat.exists_most_significant_bit hb
    have h2 := congrArg (fun n => Nat.testBit n i) h0
    simp [Nat.testBit_lor, hi.1] at h2

theorem u32_eq_zero_iff {v : Int} (h : v.natAbs < 2147483648) : u32 v = 0 ↔ v = 0 := by
  constructor
  · intro h0
    have hnn : 0 ≤ v % 4294967296 := Int.emod_nonneg v (by norm_num)
    have hz : v % 4294967296 = 0 := by
      simp only [u32] at h0
      omega
    have hdvd : (4294967296 : Int) ∣ v := Int.dvd_of_emod_eq_zero hz
    have habs : |v| < 4294967296 := by
      rw [Int.abs_eq_natAbs]
      omega
    exact Int.eq_zero_of_abs_lt_dvd hdvd habs
  · intro h0
    subst h0
    rfl

theorem jsOrIsZero_false {y m d : Int} (hy : y.natAbs < 2147483648)
    (hm : m.natAbs < 2147483648) (hd : d.natAbs < 2147483648)
    (hnz : ¬ (y = 0 ∧ m = 0 ∧ d = 0)) : jsOrIsZero y m d = false := by
  unfold jsOrIsZero
  rw [beq_eq_false_iff_ne]
  intro h0
  obtain ⟨h1, h2⟩ := nat_lor_eq_zero h0
  obtain ⟨h3, h4⟩ := nat_lor_eq_zero h1
  exact hnz ⟨(u32_eq_zero_iff hy).1 h3, (u32_eq_zero_iff hm).1 h4, (u32_eq_zero_iff hd).1 h2⟩

/-- C8: for integer components each of absolute value below `2^31` (the
range on which the constructor's 32-bit bitwise-or zero test is exact),
`Period.of(y, m, d)` returns the shared `Period.ZERO` singleton exactly
when all three are zero, and otherwise an instance whose `years()`,
`months()` and `days()` accessors return the three components; `isZero()`
is true only for the singleton. -/
theorem period_of_zero_and_accessors (y m d : Int)
    (hy : y.natAbs < 2147483648) (hm : m.natAbs < 2147483648)
    (hd : d.natAbs < 2147483648) :
    ∃ p, Period.of y m d = .ok p ∧
      (p = Period.ZERO ↔ (y = 0 ∧ m = 0 ∧ d = 0)) ∧
      p.years = y ∧ p.months = m ∧ p.days = d ∧
      (p.isZero = true ↔ p = Period.ZERO) := by
  by_cases hz : y = 0 ∧ m = 0 ∧ d = 0
  · obtain ⟨rfl, rfl, rfl⟩ := hz
    refine ⟨Period.ZERO, by rfl, by simp, rfl, rfl, rfl, by simp [Period.isZero]⟩
  · have hfalse : jsOrIsZero y m d = false := jsOrIsZero_false hy hm hd hz
    have hsy : safeToInt y = .ok y := by
      unfold safeToInt
      rw [if_pos (by unfold MAX_SAFE_INTEGER; omega)]
    have hsm : safeToInt m = .ok m := by
      unfold safeToInt
      rw [if_pos (by unfold MAX_SAFE_INTEGER; omega)]
    have hsd : safeToInt d = .ok d := by
      unfold safeToInt
      rw [if_pos (by unfold MAX_SAFE_INTEGER; omega)]
    refine ⟨⟨y, m, d⟩, ?_, ?_, rfl, rfl, rfl, by simp [Period.isZero]⟩
    · simp only [Period.of, Period.create, hfalse, hsy, hsm, hsd, Bool.false_eq_true,
        if_false]
      rfl
    · constructor
      · intro hp
        injection hp with e1 e2 e3
        exact absurd ⟨e1, e2, e3⟩ hz
      · intro hall
        exact absurd hall hz

/-- Witness for C8 at the concrete components (0,0,0) and (1,−2,3). -/
theorem period_of_zero_and_accessors_witness :
    (∃ p, Period.of 0 0 0 = .ok p ∧
      (p = Period.ZERO ↔ ((0 : Int) = 0 ∧ (0 : Int) = 0 ∧ (0 : Int) = 0)) ∧
      p.years = 0 ∧ p.months = 0 ∧ p.days = 0 ∧
      (p.isZero = true ↔ p = Period.ZERO)) ∧
    (∃ p, Period.of 1 (-2) 3 = .ok p ∧
      (p = Period.ZERO ↔ ((1 : Int) = 0 ∧ (-2 : Int) = 0 ∧ (3 : Int) = 0)) ∧
      p.years = 1 ∧ p.months = -2 ∧ p.days = 3 ∧
      (p.isZero = true ↔ p = Period.ZERO)) :=
  ⟨period_of_zero_and_accessors 0 0 0 (by decide) (by decide) (by decide),
   period_of_zero_and_accessors 1 (-2) 3 (by decide) (by decide) (by decide)⟩

theorem intToChars_nonneg {v : Int} (h : ¬ v < 0) : intToChars v = natToDigits v.natAbs := by
  unfold intToChars
  rw [if_neg h]

theorem intToChars_neg {v : Int} (h : v < 0) : intToChars v = '-' :: natToDigits v.natAbs := by
  unfold intToChars
  rw [if_pos h]

theorem digit_ne_minus {c : Char} (h : isDigitChar c = true) : c ≠ '-' := by
  intro he
  subst he
  exact absurd h (by decide)

theorem digit_ne_plus {c : Char} (h : isDigitChar c = true) : c ≠ '+' := by
  intro he
  subst he
  exact absurd h (by decide)

theorem mgTail_digits (suffix : Char) (sign : Int) (n : Nat) (tail : List Char)
    (hs : isDigitChar suffix = false) :
    mgTail suffix sign (natToDigits n ++ suffix :: tail) = some (sign * n, tail) := by
  unfold mgTail
  rw [takeWhile_append_stop (natToDigits n) tail (natToDigits_all_digits n) hs]
  rw [if_neg (by simp [List.isEmpty_iff, natToDigits_ne_nil n])]
  rw [List.drop_left]
  simp [digitsVal_natToDigits]

theorem mgTail_stop (suffix c2 : Char) (sign : Int) (n : Nat) (tail : List Char)
    (hs : isDigitChar c2 = false) (hne : c2 ≠ suffix) :
    mgTail suffix sign (natToDigits n ++ c2 :: tail) = none := by
  unfold mgTail
  rw [takeWhile_append_stop (natToDigits n) tail (natToDigits_all_digits n) hs]
  rw [if_neg (by simp [List.isEmpty_iff, natToDigits_ne_nil n])]
  rw [List.drop_left]
  simp [hne]

/-- A group matches at a value's printed digits followed by its own suffix. -/
theorem mg_hit (suffix : Char) (v : Int) (tail : List Char)
    (hs : isDigitChar suffix = false) :
    matchNumberGroup suffix (intToChars v ++ suffix :: tail) = some (v, tail) := by
  by_cases hv : v < 0
  · rw [intToChars_neg hv]
    simp only [matchNumberGroup, List.cons_append]
    rw [if_true, mgTail_digits suffix (-1) v.natAbs tail hs]
    have h3 : (-1 : Int) * v.natAbs = v := by omega
    rw [h3]
  · rw [intToChars_nonneg hv]
    obtain ⟨d0, t, hsplit⟩ := List.exists_cons_of_ne_nil (natToDigits_ne_nil v.natAbs)
    have hd0 : isDigitChar d0 = true := natToDigits_all_digits _ d0 (by rw [hsplit]; simp)
    rw [hsplit]
    simp only [matchNumberGroup, List.cons_append]
    rw [if_neg (digit_ne_minus hd0), if_neg (digit_ne_plus hd0), ← List.cons_append,
      ← hsplit, mgTail_digits suffix 1 v.natAbs tail hs]
    have h3 : (1 : Int) * v.natAbs = v := by omega
    rw [h3]

/-- A group fails, without moving, at a value's printed digits followed by a
different group's suffix. -/
theorem mg_missSeg (suffix c2 : Char) (v : Int) (tail : List Char)
    (hs : isDigitChar c2 = false) (hne : c2 ≠ suffix) :
    matchNumberGroup suffix (intToChars v ++ c2 :: tail) = none := by
  by_cases hv : v < 0
  · rw [intToChars_neg hv]
    simp only [matchNumberGroup, List.cons_append]
    rw [if_true, mgTail_stop suffix c2 (-1) v.natAbs tail hs hne]
  · rw [intToChars_nonneg hv]
    obtain ⟨d0, t, hsplit⟩ := List.exists_cons_of_ne_nil (natToDigits_ne_nil v.natAbs)
    have hd0 : isDigitChar d0 = true := natToDigits_all_digits _ d0 (by rw [hsplit]; simp)
    rw [hsplit]
    simp only [matchNumberGroup, List.cons_append]
    rw [if_neg (digit_ne_minus hd0), if_neg (digit_ne_plus hd0), ← List.cons_append,
      ← hsplit, mgTail_stop suffix c2 1 v.natAbs tail hs hne]

theorem mg_nil (suffix : Char) : matchNumberGroup suffix [] = none := rfl

theorem gs_hit (suffix : Char) (v : Int) (tail : List Char)
    (hs : isDigitChar suffix = false) :
    groupStep suffix (intToChars v ++ suffix :: tail) = (some v, tail) := by
  unfold groupStep
  rw [mg_hit suffix v tail hs]

theorem gs_of_none (suffix : Char) (s : List Char)
    (h : matchNumberGroup suffix s = none) : groupStep suffix s = (none, s) := by
  unfold groupStep
  rw [h]

/-- The day section alone cannot be matched by a group with another
suffix. -/
theorem mg_none_D (c : Char) (d : Int) (hcD : c ≠ 'D') :
    matchNumberGroup c (if d ≠ 0 then intToChars d ++ ['D'] else []) = none := by
  by_cases hd : d ≠ 0
  · rw [if_pos hd]
    have := mg_missSeg c 'D' d [] (by decide) (fun h => hcD h.symm)
    simpa using this
  · rw [if_neg hd]
    exact mg_nil c

/-- The month-then-day sections cannot be matched by a group with another
suffix. -/
theorem mg_none_MD (c : Char) (m d : Int) (hcM : c ≠ 'M') (hcD : c ≠ 'D') :
    matchNumberGroup c ((if m ≠ 0 then intToChars m ++ ['M'] else []) ++
      (if d ≠ 0 then intToChars d ++ ['D'] else [])) = none := by
  by_cases hm : m ≠ 0
  · rw [if_pos hm, List.append_assoc, List.singleton_append]
    exact mg_missSeg c 'M' m _ (by decide) (fun h => hcM h.symm)
  · rw [if_neg hm, List.nil_append]
    exact mg_none_D c d hcD

/-- The whole regex matched against the nonzero `toString` text: group 1 is
empty (`negate` 1), the `Y`, `M`, `D` groups capture exactly the printed
nonzero components, and the `W` group is absent. -/
theorem periodMatchHere_segs (y m d : Int) :
    periodMatchHere ('P' :: ((if y ≠ 0 then intToChars y ++ ['Y'] else []) ++
      ((if m ≠ 0 then intToChars m ++ ['M'] else []) ++
       (if d ≠ 0 then intToChars d ++ ['D'] else [])))) =
    some (1, ((if y = 0 then none else some y), (if m = 0 then none else some m),
      none, (if d = 0 then none else some d))) := by
  simp only [periodMatchHere]
  rw [if_neg (by decide : ¬ ('P' = '-')), if_neg (by decide : ¬ ('P' = '+'))]
  simp only [periodGroups]
  rw [if_true]
  have eY : groupStep 'Y' ((if y ≠ 0 then intToChars y ++ ['Y'] else []) ++
      ((if m ≠ 0 then intToChars m ++ ['M'] else []) ++
       (if d ≠ 0 then intToChars d ++ ['D'] else []))) =
      ((if y = 0 then none else some y),
        ((if m ≠ 0 then intToChars m ++ ['M'] else []) ++
         (if d ≠ 0 then intToChars d ++ ['D'] else []))) := by
    by_cases hy : y = 0
    · rw [if_neg (by simp [hy]), List.nil_append, if_pos hy]
      exact gs_of_none 'Y' _ (mg_none_MD 'Y' m d (by decide) (by decide))
    · rw [if_pos hy, List.append_assoc, List.singleton_append, if_neg hy]
      exact gs_hit 'Y' y _ (by decide)
  have eM : groupStep 'M' ((if m ≠ 0 then intToChars m ++ ['M'] else []) ++
      (if d ≠ 0 then intToChars d ++ ['D'] else [])) =
      ((if m = 0 then none else some m),
        (if d ≠ 0 then intToChars d ++ ['D'] else [])) := by
    by_cases hm : m = 0
    · rw [if_neg (by simp [hm]), List.nil_append, if_pos hm]
      exact gs_of_none 'M' _ (mg_none_D 'M' d (by decide))
    · rw [if_pos hm, List.append_assoc, List.singleton_append, if_neg hm]
      exact gs_hit 'M' m _ (by decide)
  have eW : groupStep 'W' (if d ≠ 0 then intToChars d ++ ['D'] else []) =
      (none, (if d ≠ 0 then intToChars d ++ ['D'] else [])) :=
    gs_of_none 'W' _ (mg_none_D 'W' d (by decide))
  have eD : groupStep 'D' (if d ≠ 0 then intToChars d ++ ['D'] else []) =
      ((if d = 0 then none else some d), []) := by
    by_cases hd : d = 0
    · rw [if_neg (by simp [hd]), if_pos hd]
      exact gs_of_none 'D' [] (mg_nil 'D')
    · rw [if_pos hd, if_neg hd]
      have := gs_hit 'D' d [] (by decide)
      simpa using this
  rw [eY]
  simp only
  rw [eM]
  simp only
  rw [eW]
  simp only
  rw [eD]

/-- Parsing the nonzero `toString` text reconstructs the original
`Period.create` call. -/
theorem parseChars_segs (y m d : Int)
    (hy : y.natAbs ≤ MAX_SAFE_INTEGER) (hm : m.natAbs ≤ MAX_SAFE_INTEGER)
    (hd : d.natAbs ≤ MAX_SAFE_INTEGER) (hnz : ¬ (y = 0 ∧ m = 0 ∧ d = 0)) :
    Period.parseChars ('P' :: ((if y ≠ 0 then intToChars y ++ ['Y'] else []) ++
      ((if m ≠ 0 then intToChars m ++ ['M'] else []) ++
       (if d ≠ 0 then intToChars d ++ ['D'] else [])))) = Period.create y m d := by
  have hexec : execPeriodPattern ('P' :: ((if y ≠ 0 then intToChars y ++ ['Y'] else []) ++
      ((if m ≠ 0 then intToChars m ++ ['M'] else []) ++
       (if d ≠ 0 then intToChars d ++ ['D'] else [])))) =
      some (1, ((if y = 0 then none else some y), (if m = 0 then none else some m),
        none, (if d = 0 then none else some d))) := by
    simp only [execPeriodPattern]
    rw [periodMatchHere_segs]
  simp only [Period.parseChars, hexec]
  have hcond : ((if y = 0 then none else some y).isNone &&
      (if m = 0 then none else some m).isNone && (none : Option Int).isNone &&
      (if d = 0 then none else some d).isNone) = false := by
    by_cases hy0 : y = 0 <;> by_cases hm0 : m = 0 <;> by_cases hd0 : d = 0 <;>
      simp_all
  rw [hcond]
  simp only [Bool.false_eq_true, if_false]
  have eY : parseNumber (if y = 0 then none else some y) 1 = Except.ok y := by
    by_cases hy0 : y = 0
    · rw [if_pos hy0]
      simp [parseNumber, hy0]
    · rw [if_neg hy0]
      simp only [parseNumber]
      unfold safeMultiply
      rw [mul_one, if_pos hy]
  have eM : parseNumber (if m = 0 then none else some m) 1 = Except.ok m := by
    by_cases hm0 : m = 0
    · rw [if_pos hm0]
      simp [parseNumber, hm0]
    · rw [if_neg hm0]
      simp only [parseNumber]
      unfold safeMultiply
      rw [mul_one, if_pos hm]
  have eD : parseNumber (if d = 0 then none else some d) 1 = Except.ok d := by
    by_cases hd0 : d = 0
    · rw [if_pos hd0]
      simp [parseNumber, hd0]
    · rw [if_neg hd0]
      simp only [parseNumber]
      unfold safeMultiply
      rw [mul_one, if_pos hd]
  have eAdd : safeAdd d 0 = Except.ok d := by
    unfold safeAdd
    rw [if_pos (by rw [add_zero]; exact hd)]
    rw [add_zero]
  simp only [eY, eM, eD]
  show Except.bind (safeAdd d 0) (fun days => Period.create y m days) = Period.create y m d
  rw [eAdd]
  rfl

/-- Any period built by `Period.create` from validated components round-trips
through `toString` and `parse` up to `equals`. -/
theorem create_roundtrip (y m d : Int)
    (hy : y.natAbs ≤ MAX_SAFE_INTEGER) (hm : m.natAbs ≤ MAX_SAFE_INTEGER)
    (hd : d.natAbs ≤ MAX_SAFE_INTEGER) (p : Period)
    (hp : Period.create y m d = .ok p) :
    ∃ q, Period.parseChars p.toChars = .ok q ∧ Period.equals q p = true := by
  by_cases hz : jsOrIsZero y m d
  · have hpz : p = Period.ZERO := by
      unfold Period.create at hp
      rw [if_pos hz] at hp
      injection hp with h
      exact h.symm
    subst hpz
    exact ⟨Period.ZERO, rfl, by decide⟩
  · have hne : ¬ (y = 0 ∧ m = 0 ∧ d = 0) := by
      intro h
      obtain ⟨rfl, rfl, rfl⟩ := h
      exact hz (by decide)
    have hval : p = ⟨y, m, d⟩ := by
      unfold Period.create at hp
      rw [if_neg hz] at hp
      unfold safeToInt at hp
      rw [if_pos hy, if_pos hm, if_pos hd] at hp
      have hp2 : Except.ok (⟨y, m, d⟩ : Period) = Except.ok p := hp
      injection hp2 with h
      exact h.symm
    subst hval
    have htos : Period.toChars ⟨y, m, d⟩ =
        'P' :: ((if y ≠ 0 then intToChars y ++ ['Y'] else []) ++
          ((if m ≠ 0 then intToChars m ++ ['M'] else []) ++
           (if d ≠ 0 then intToChars d ++ ['D'] else []))) := by
      unfold Period.toChars
      rw [if_neg (by
        intro h
        injection h with e1 e2 e3
        exact hne ⟨e1, e2, e3⟩)]
    rw [htos, parseChars_segs y m d hy hm hd hne]
    refine ⟨⟨y, m, d⟩, hp, ?_⟩
    simp [Period.equals]

/-- C9: every period obtained from `Period.of`, `ofYears`, `ofMonths`,
`ofWeeks` or `ofDays` with components in the accepted (JS safe-integer)
range satisfies `Period.parse(p.toString()).equals(p)`; the zero period
prints as `P0D` and parses back to the `ZERO` singleton, and nonzero
(including negative) components round-trip through the `PnYnMnD` form. -/
theorem period_parse_toString_roundtrip (y m d w : Int)
    (hy : y.natAbs ≤ MAX_SAFE_INTEGER) (hm : m.natAbs ≤ MAX_SAFE_INTEGER)
    (hd : d.natAbs ≤ MAX_SAFE_INTEGER) (hw : (w * 7).natAbs ≤ MAX_SAFE_INTEGER) :
    (∀ p, Period.of y m d = .ok p →
      ∃ q, Period.parseChars p.toChars = .ok q ∧ Period.equals q p = true) ∧
    (∀ p, Period.ofYears y = .ok p →
      ∃ q, Period.parseChars p.toChars = .ok q ∧ Period.equals q p = true) ∧
    (∀ p, Period.ofMonths m = .ok p →
      ∃ q, Period.parseChars p.toChars = .ok q ∧ Period.equals q p = true) ∧
    (∀ p, Period.ofDays d = .ok p →
      ∃ q, Period.parseChars p.toChars = .ok q ∧ Period.equals q p = true) ∧
    (∀ p, Period.ofWeeks w = .ok p →
      ∃ q, Period.parseChars p.toChars = .ok q ∧ Period.equals q p = true) ∧
    Period.toChars Period.ZERO = 'P' :: '0' :: 'D' :: [] ∧
    Period.parseChars ('P' :: '0' :: 'D' :: []) = .ok Period.ZERO := by
  refine ⟨?_, ?_, ?_, ?_, ?_, rfl, rfl⟩
  · intro p hp
    exact create_roundtrip y m d hy hm hd p hp
  · intro p hp
    exact create_roundtrip y 0 0 hy (by decide) (by decide) p hp
  · intro p hp
    exact create_roundtrip 0 m 0 (by decide) hm (by decide) p hp
  · intro p hp
    exact create_roundtrip 0 0 d (by decide) (by decide) hd p hp
  · intro p hp
    unfold Period.ofWeeks at hp
    have hmul : safeMultiply w 7 = Except.ok (w * 7) := by
      unfold safeMultiply
      rw [if_pos hw]
    rw [hmul] at hp
    exact create_roundtrip 0 0 (w * 7) (by decide) (by decide) hw p hp

/-- Witness for C9 at the concrete period (1, −2, 3) and weeks 2. -/
theorem period_parse_toString_roundtrip_witness :
    (∃ q, Period.parseChars (Period.toChars ⟨1, -2, 3⟩) = .ok q ∧
      Period.equals q ⟨1, -2, 3⟩ = true) ∧
    (∃ q, Period.parseChars (Period.toChars ⟨0, 0, 14⟩) = .ok q ∧
      Period.equals q ⟨0, 0, 14⟩ = true) :=
  ⟨(period_parse_toString_roundtrip 1 (-2) 3 2 (by decide) (by decide) (by decide)
      (by decide)).1 ⟨1, -2, 3⟩ (by rfl),
   ((period_parse_toString_roundtrip 1 (-2) 3 2 (by decide) (by decide) (by decide)
      (by decide)).2.2.2.2.1) ⟨0, 0, 14⟩ (by rfl)⟩

end JsJoda
